import Mathlib

/-!
Verification development for the Hermes email-to-PDF conversion pipeline
(`src/converter.py`).  The pipeline's data model and operations are shallowly
embedded: PDF pages are modelled by their mediabox geometry over `ℚ` (the
Python code computes with floats; all formulas here are the exact rational
counterparts of the source expressions), documents are lists of pages,
stateful loops become folds over explicit state, and fallible steps return
`Option` / `Except`.  External collaborators (WeasyPrint, LibreOffice, Pillow,
pypdf) are modelled only through the interface the core logic uses: e.g.
`PdfWriter.append` concatenates the appended document's pages in order, and
`page.merge_page(watermark)` overlays content without changing the mediabox.
-/

namespace Hermes

/-- A4 page width in PDF points (constant `A4_WIDTH_PT = 595.28` in
`converter.py`). -/
def A4_WIDTH_PT : ℚ := 595.28

/-- A4 page height in PDF points (constant `A4_HEIGHT_PT = 841.89` in
`converter.py`). -/
def A4_HEIGHT_PT : ℚ := 841.89

/-- A page of an input PDF, modelled by its mediabox dimensions
(`page.mediabox.width` / `page.mediabox.height` in `scale_to_a4`). -/
structure SrcPage where
  width : ℚ
  height : ℚ
  deriving DecidableEq

/-- A page produced by the pipeline after `scale_to_a4`: a fresh blank page of
the target dimensions (`width`/`height`), carrying the merged content of the
original page.  `srcWidth`/`srcHeight` record the original mediabox, and
`scale`, `tx`, `ty` record the affine placement
(`Transformation().scale(scale).translate(tx, ty)`) applied to that content
before it was merged onto the blank page.  `stamps` records the page-number
watermarks later merged onto the page by `add_page_numbers` (the text
`Seite: n` is modelled by the number `n`), in merge order. -/
structure A4Page where
  width : ℚ
  height : ℚ
  srcWidth : ℚ
  srcHeight : ℚ
  scale : ℚ
  tx : ℚ
  ty : ℚ
  stamps : List Nat
  deriving DecidableEq

/-- Body of the per-page loop of `scale_to_a4` (converter.py:114-143): create
a blank A4 page, compute the two fit factors, take their minimum, centre, and
merge the transformed source page onto the blank page. -/
def scale_to_a4_page (p : SrcPage) : A4Page :=
  let scale_w := A4_WIDTH_PT / p.width
  let scale_h := A4_HEIGHT_PT / p.height
  let scale := min scale_w scale_h
  let tx := (A4_WIDTH_PT - p.width * scale) / 2
  let ty := (A4_HEIGHT_PT - p.height * scale) / 2
  ⟨A4_WIDTH_PT, A4_HEIGHT_PT, p.width, p.height, scale, tx, ty, []⟩

/-- `scale_to_a4` (converter.py:114-146): rescale every page of the input
document to A4, independently page by page. -/
def scale_to_a4 (doc : List SrcPage) : List A4Page :=
  doc.map scale_to_a4_page

/-- Effect of one iteration of the loop of `add_page_numbers` on its page:
the watermark produced from the HTML snippet `Seite: num` is merged onto the
page (`page.merge_page(watermark_page)`), which stacks one more page-number
annotation onto the existing content and leaves the mediabox unchanged. -/
def stampPage (num : Nat) (p : A4Page) : A4Page :=
  ⟨p.width, p.height, p.srcWidth, p.srcHeight, p.scale, p.tx, p.ty,
    p.stamps ++ [num]⟩

/-- The loop of `add_page_numbers` (converter.py:252-291):
`for i, page in enumerate(reader.pages): page_num = i + 1; ...`, stamping
`Seite: i+1` onto the i-th page. -/
def add_page_numbers_aux : Nat → List A4Page → List A4Page
  | _, [] => []
  | i, p :: ps => stampPage (i + 1) p :: add_page_numbers_aux (i + 1) ps

/-- `add_page_numbers` (converter.py:243-294): stamp sequential 1-based page
numbers onto every page of the document. -/
def add_page_numbers (doc : List A4Page) : List A4Page :=
  add_page_numbers_aux 0 doc

/-- The merge step of `process_eml` (converter.py:917-923):
`merger = PdfWriter(); for pdf in pdf_parts: merger.append(pdf)`, where
`PdfWriter.append` adds all pages of the appended document in order. -/
def assemble (parts : List (List A4Page)) : List A4Page :=
  parts.foldl (fun acc pdf => acc ++ pdf) []

theorem foldl_append_eq_flatten (parts : List (List A4Page)) :
    ∀ acc : List A4Page,
      parts.foldl (fun a b => a ++ b) acc = acc ++ parts.flatten := by
  induction parts with
  | nil => intro acc; simp
  | cons x xs ih => intro acc; simp [ih, List.append_assoc]

theorem add_page_numbers_aux_length (doc : List A4Page) :
    ∀ n, (add_page_numbers_aux n doc).length = doc.length := by
  induction doc with
  | nil => intro n; rfl
  | cons p ps ih => intro n; simp [add_page_numbers_aux, ih]

theorem add_page_numbers_aux_get? (doc : List A4Page) :
    ∀ n i, (add_page_numbers_aux n doc).get? i =
      (doc.get? i).map (stampPage (n + i + 1)) := by
  induction doc with
  | nil => intro n i; simp [add_page_numbers_aux]
  | cons p ps ih =>
    intro n i
    cases i with
    | zero => simp [add_page_numbers_aux]
    | succ j =>
      have harith : n + (j + 1) + 1 = n + 1 + j + 1 := by omega
      simp only [add_page_numbers_aux, List.get?_cons_succ, harith, ih (n + 1) j]

/-- C2: for every input PDF and every page in it with positive width and
height, `scale_to_a4` maps the page at each position to a page of exactly the
target A4 dimensions; the content is scaled uniformly (one factor for both
axes, so the aspect ratio is preserved) by the minimum of the width-fit and
height-fit factors, the scaled content fits inside the target canvas (nothing
is cropped), and the translation centres it: the left margin equals the right
margin and the bottom margin equals the top margin. -/
theorem claim2_page_normalizer (doc : List SrcPage) (p : SrcPage)
    (hw : 0 < p.width) (hh : 0 < p.height) :
    scale_to_a4 doc = doc.map scale_to_a4_page ∧
    (scale_to_a4_page p).width = A4_WIDTH_PT ∧
    (scale_to_a4_page p).height = A4_HEIGHT_PT ∧
    (scale_to_a4_page p).scale
      = min (A4_WIDTH_PT / p.width) (A4_HEIGHT_PT / p.height) ∧
    0 < (scale_to_a4_page p).scale ∧
    p.width * (scale_to_a4_page p).scale ≤ A4_WIDTH_PT ∧
    p.height * (scale_to_a4_page p).scale ≤ A4_HEIGHT_PT ∧
    (scale_to_a4_page p).tx
      = (A4_WIDTH_PT - p.width * (scale_to_a4_page p).scale) / 2 ∧
    (scale_to_a4_page p).ty
      = (A4_HEIGHT_PT - p.height * (scale_to_a4_page p).scale) / 2 ∧
    A4_WIDTH_PT - ((scale_to_a4_page p).tx + p.width * (scale_to_a4_page p).scale)
      = (scale_to_a4_page p).tx ∧
    A4_HEIGHT_PT - ((scale_to_a4_page p).ty + p.height * (scale_to_a4_page p).scale)
      = (scale_to_a4_page p).ty := by
  have hW : (0 : ℚ) < A4_WIDTH_PT := by norm_num [A4_WIDTH_PT]
  have hH : (0 : ℚ) < A4_HEIGHT_PT := by norm_num [A4_HEIGHT_PT]
  have hs : (0 : ℚ) < min (A4_WIDTH_PT / p.width) (A4_HEIGHT_PT / p.height) :=
    lt_min (div_pos hW hw) (div_pos hH hh)
  have h1 : p.width * min (A4_WIDTH_PT / p.width) (A4_HEIGHT_PT / p.height)
      ≤ A4_WIDTH_PT := by
    calc p.width * min (A4_WIDTH_PT / p.width) (A4_HEIGHT_PT / p.height)
        ≤ p.width * (A4_WIDTH_PT / p.width) :=
          mul_le_mul_of_nonneg_left (min_le_left _ _) hw.le
      _ = A4_WIDTH_PT := by field_simp
  have h2 : p.height * min (A4_WIDTH_PT / p.width) (A4_HEIGHT_PT / p.height)
      ≤ A4_HEIGHT_PT := by
    calc p.height * min (A4_WIDTH_PT / p.width) (A4_HEIGHT_PT / p.height)
        ≤ p.height * (A4_HEIGHT_PT / p.height) :=
          mul_le_mul_of_nonneg_left (min_le_right _ _) hh.le
      _ = A4_HEIGHT_PT := by field_simp
  refine ⟨rfl, rfl, rfl, rfl, hs, h1, h2, rfl, rfl, ?_, ?_⟩
  · show A4_WIDTH_PT -
        ((A4_WIDTH_PT - p.width * min (A4_WIDTH_PT / p.width) (A4_HEIGHT_PT / p.height)) / 2 +
          p.width * min (A4_WIDTH_PT / p.width) (A4_HEIGHT_PT / p.height))
      = (A4_WIDTH_PT - p.width * min (A4_WIDTH_PT / p.width) (A4_HEIGHT_PT / p.height)) / 2
    ring
  · show A4_HEIGHT_PT -
        ((A4_HEIGHT_PT - p.height * min (A4_WIDTH_PT / p.width) (A4_HEIGHT_PT / p.height)) / 2 +
          p.height * min (A4_WIDTH_PT / p.width) (A4_HEIGHT_PT / p.height))
      = (A4_HEIGHT_PT - p.height * min (A4_WIDTH_PT / p.width) (A4_HEIGHT_PT / p.height)) / 2
    ring

/-- Witness for C2 at a concrete 100 x 200 point page. -/
theorem claim2_witness :
    (scale_to_a4_page ⟨100, 200⟩).width = A4_WIDTH_PT :=
  (claim2_page_normalizer [] ⟨100, 200⟩ (by norm_num) (by norm_num)).2.1

/-- C3: the document assembler (the `PdfWriter` merge loop of `process_eml`)
concatenates the parts' pages: the output is exactly the flattening of the
ordered list of parts, so its page count is the sum of the parts' page counts,
pages appear in part order with each part's internal order preserved, and no
page is dropped or duplicated. -/
theorem claim3_assembler (parts : List (List A4Page)) :
    assemble parts = parts.flatten ∧
    (assemble parts).length = (parts.map List.length).sum := by
  have h : assemble parts = parts.flatten := by
    simpa [assemble] using foldl_append_eq_flatten parts []
  exact ⟨h, by rw [h, List.length_flatten]⟩

/-- C4: `add_page_numbers` keeps the page count, leaves every page's geometry
and previously merged content unchanged, and merges exactly one new
page-number annotation onto each page, whose text is the page's 1-based
position. -/
theorem claim4_pagination_overlay (doc : List A4Page) :
    (add_page_numbers doc).length = doc.length ∧
    ∀ i : Nat, (add_page_numbers doc).get? i
      = (doc.get? i).map (stampPage (i + 1)) := by
  refine ⟨add_page_numbers_aux_length doc 0, fun i => ?_⟩
  simpa using add_page_numbers_aux_get? doc 0 i

/-- A one-page document at target size with no page-number annotation yet. -/
def onePageDoc : List A4Page :=
  [⟨A4_WIDTH_PT, A4_HEIGHT_PT, A4_WIDTH_PT, A4_HEIGHT_PT, 1, 0, 0, []⟩]

/-- C9: the pagination overlay is not idempotent: applying `add_page_numbers`
to an already-paginated one-page document stacks a second `Seite: 1`
annotation on the page instead of leaving the document unchanged. -/
theorem claim9_overlay_not_idempotent :
    add_page_numbers (add_page_numbers onePageDoc) ≠ add_page_numbers onePageDoc := by
  intro h
  have h2 := congrArg (fun l => l.map A4Page.stamps) h
  simp [onePageDoc, add_page_numbers, add_page_numbers_aux, stampPage] at h2

/-! Filename sanitizer (converter.py:807-838).  Filenames are modelled as
lists of characters. -/

/-- Characters kept by the regular-expression filter
`re.sub(r'[^a-zA-Z0-9._-]', '', filename)` (converter.py:814): the class
`[a-zA-Z0-9._-]`, written via code points (`a`-`z` is 97-122, `A`-`Z` is
65-90, `0`-`9` is 48-57). -/
def isAllowedChar (c : Char) : Bool :=
  decide ((97 ≤ c.toNat ∧ c.toNat ≤ 122) ∨ (65 ≤ c.toNat ∧ c.toNat ≤ 90) ∨
    (48 ≤ c.toNat ∧ c.toNat ≤ 57) ∨ c.toNat = 46 ∨ c.toNat = 95 ∨ c.toNat = 45)

/-- Sanitizer step 1 (converter.py:809):
`unicodedata.normalize('NFKD', filename).encode('ascii', 'ignore')` — every
character that cannot be represented in ASCII is discarded.  NFKD leaves
ASCII characters unchanged, so this model is exact on ASCII inputs; a
non-ASCII character may really be decomposed into an ASCII base character
first, which this model conservatively drops.  Every theorem below is either
independent of this step's behaviour on non-ASCII characters or is
instantiated on ASCII-only inputs, where the model is exact. -/
def dropNonAscii (cs : List Char) : List Char :=
  cs.filter (fun c => decide (c.toNat < 128))

/-- Sanitizer step 2 (converter.py:813-814): `filename.replace(' ', '_')`
followed by `re.sub(r'[^a-zA-Z0-9._-]', '', filename)`. -/
def keepAllowed (cs : List Char) : List Char :=
  (cs.map (fun c => if c = ' ' then '_' else c)).filter isAllowedChar

/-- Index of the last occurrence of `c`, if any. -/
def lastIdxOf (c : Char) : List Char → Option Nat
  | [] => none
  | x :: xs =>
    match lastIdxOf c xs with
    | some i => some (i + 1)
    | none => if x = c then some 0 else none

/-- Python's `os.path.splitext` restricted to a bare filename (no directory
separators), used at converter.py:819: split off the extension starting at
the last dot — unless every character before that dot is itself a dot
(CPython's leading-dots rule, e.g. `.bashrc` has no extension). -/
def splitext (cs : List Char) : List Char × List Char :=
  match lastIdxOf '.' cs with
  | none => (cs, [])
  | some i =>
    if (cs.take i).all (fun c => c == '.') then (cs, [])
    else (cs.take i, cs.drop i)

/-- The `limit` variable of sanitizer step 3 (converter.py:821-824): the stem
budget `MAX_LEN - len(suffix)`, raised to 1 when the extension leaves no room
for any stem character. -/
def truncLimit (cs : List Char) : Nat :=
  if 50 - (splitext cs).2.length < 1 then 1
  else 50 - (splitext cs).2.length

/-- Sanitizer step 3 (converter.py:817-836): truncate to at most
`MAX_LEN = 50` characters, keeping the extension and at least one stem
character, then hard-truncate to 50 if the extension alone was too long. -/
def truncate50 (cs : List Char) : List Char :=
  if cs.length ≤ 50 then cs
  else
    if 50 < ((splitext cs).1.take (truncLimit cs) ++ (splitext cs).2).length
    then ((splitext cs).1.take (truncLimit cs) ++ (splitext cs).2).take 50
    else (splitext cs).1.take (truncLimit cs) ++ (splitext cs).2

/-- The filename sanitization block of `process_eml` (converter.py:807-838),
as a function: ASCII projection, whitespace/charset filtering, bounded-length
truncation. -/
def sanitize_filename (cs : List Char) : List Char :=
  truncate50 (keepAllowed (dropNonAscii cs))

/-- pathlib's `PurePath.suffix` for a bare filename: the part from the last
dot, provided that dot is neither the first nor the last character.  Used by
`convert_attachment` (converter.py:467) and the analysis-eligibility check
(converter.py:872), both of which consult `filepath.suffix.lower()`. -/
def pathSuffix (cs : List Char) : List Char :=
  match lastIdxOf '.' cs with
  | none => []
  | some i => if 0 < i ∧ i < cs.length - 1 then cs.drop i else []

theorem splitext_append (cs : List Char) :
    (splitext cs).1 ++ (splitext cs).2 = cs := by
  unfold splitext
  cases lastIdxOf '.' cs with
  | none => simp
  | some i =>
    by_cases h : (cs.take i).all (fun c => c == '.') = true
    · simp [h]
    · simp [h, List.take_append_drop]

theorem keepAllowed_allowed {c : Char} {cs : List Char}
    (h : c ∈ keepAllowed cs) : isAllowedChar c = true :=
  (List.mem_filter.mp h).2

theorem allowed_or_space_ascii {c : Char}
    (h : isAllowedChar c = true ∨ c = ' ') : c.toNat < 128 := by
  rcases h with h | h
  · simp only [isAllowedChar, decide_eq_true_eq] at h
    rcases h with h | h | h | h | h | h <;> omega
  · subst h; decide

theorem keepAllowed_ne_nil {c : Char} {cs : List Char} (hm : c ∈ cs)
    (hc : isAllowedChar c = true ∨ c = ' ') : keepAllowed cs ≠ [] := by
  have hall : isAllowedChar (if c = ' ' then '_' else c) = true := by
    rcases hc with hc | hc
    · have : ¬ c = ' ' := by
        intro h; subst h; simp [isAllowedChar] at hc
      simp [this, hc]
    · simp [hc]; decide
  have : (if c = ' ' then '_' else c) ∈ keepAllowed cs :=
    List.mem_filter.mpr ⟨List.mem_map_of_mem _ hm, hall⟩
  exact List.ne_nil_of_mem this

theorem truncLimit_pos (cs : List Char) : 1 ≤ truncLimit cs := by
  unfold truncLimit
  split <;> omega

theorem truncLimit_eq {cs : List Char}
    (h : (splitext cs).2.length < 50) :
    truncLimit cs = 50 - (splitext cs).2.length := by
  unfold truncLimit
  rw [if_neg]
  omega

theorem truncate50_length_le (cs : List Char) :
    (truncate50 cs).length ≤ 50 := by
  unfold truncate50
  split
  · assumption
  · split
    · simp only [List.length_take]; omega
    · rename_i hle
      simp only [List.length_append, List.length_take] at hle ⊢
      omega

theorem truncate50_mem {c : Char} {cs : List Char}
    (h : c ∈ truncate50 cs) : c ∈ cs := by
  have hsplit := splitext_append cs
  unfold truncate50 at h
  split at h
  · exact h
  · rw [← hsplit]
    split at h
    · rcases List.mem_append.mp (List.mem_of_mem_take h) with h' | h'
      · exact List.mem_append_left _ (List.mem_of_mem_take h')
      · exact List.mem_append_right _ h'
    · rcases List.mem_append.mp h with h' | h'
      · exact List.mem_append_left _ (List.mem_of_mem_take h')
      · exact List.mem_append_right _ h'

theorem truncate50_pos {cs : List Char} (h : 0 < cs.length) :
    0 < (truncate50 cs).length := by
  have hsplit := congrArg List.length (splitext_append cs)
  rw [List.length_append] at hsplit
  have hlim := truncLimit_pos cs
  unfold truncate50
  split
  · exact h
  · split
    · simp only [List.length_take, List.length_append]; omega
    · simp only [List.length_take, List.length_append]; omega

/-- C7 counterexample: the claim fails in two ways on ASCII inputs (where the
embedding of the sanitizer is exact).  First, the filename `(` contains an
ASCII-representable character, yet the sanitizer output is empty — it does
not match `^[A-Za-z0-9._-]{1,50}$`.  Second, not all whitespace is mapped to
underscore: a tab in `a\tb` is dropped entirely (the code only replaces the
space character), giving `ab` rather than `a_b`. -/
theorem claim7_counterexample :
    sanitize_filename ['('] = [] ∧
    sanitize_filename ['a', '\t', 'b'] = ['a', 'b'] := by decide

/-- C7 (amended): for every filename containing at least one character of the
allowed class `[A-Za-z0-9._-]` or a space, the sanitizer output consists only
of characters in `[A-Za-z0-9._-]` (in particular the space is mapped to
underscore, while every other character outside the class — including other
whitespace such as tab — is dropped), is nonempty, and has length at most 50;
every output character comes from the charset-filtered string, and when that
string exceeds 50 characters but its `splitext` extension is shorter than 50,
the truncation keeps the whole extension and cuts only the stem. -/
theorem claim7_filename_sanitizer (cs : List Char)
    (hc : ∃ c ∈ cs, isAllowedChar c = true ∨ c = ' ') :
    (∀ c ∈ sanitize_filename cs, isAllowedChar c = true) ∧
    1 ≤ (sanitize_filename cs).length ∧
    (sanitize_filename cs).length ≤ 50 ∧
    (50 < (keepAllowed (dropNonAscii cs)).length →
      (splitext (keepAllowed (dropNonAscii cs))).2.length < 50 →
      sanitize_filename cs =
        (splitext (keepAllowed (dropNonAscii cs))).1.take
            (50 - (splitext (keepAllowed (dropNonAscii cs))).2.length) ++
          (splitext (keepAllowed (dropNonAscii cs))).2) := by
  obtain ⟨c, hm, hc⟩ := hc
  have hmem : c ∈ dropNonAscii cs :=
    List.mem_filter.mpr ⟨hm, by simpa using allowed_or_space_ascii hc⟩
  have hne : keepAllowed (dropNonAscii cs) ≠ [] := keepAllowed_ne_nil hmem hc
  refine ⟨?_, ?_, truncate50_length_le _, ?_⟩
  · intro d hd
    exact keepAllowed_allowed (truncate50_mem hd)
  · exact truncate50_pos (List.length_pos.mpr hne)
  · intro hlong hsfx
    have hlim := truncLimit_eq hsfx
    unfold sanitize_filename truncate50
    rw [if_neg (by omega), if_neg, hlim]
    simp only [List.length_append, List.length_take, hlim]
    omega

/-- Witness for C7 (amended) at the concrete filename `ab`. -/
theorem claim7_witness : 1 ≤ (sanitize_filename ['a', 'b']).length :=
  (claim7_filename_sanitizer ['a', 'b'] (by decide)).2.1

/-! Dispatch logic of `convert_attachment` (converter.py:449-610).  The
function's inputs are the signature-detected MIME type of the file's bytes
(`filetype.guess`, falling back to `mimetypes.guess_type` when the signature
is inconclusive — the model takes the post-fallback value as a parameter) and
the lower-cased extension `filepath.suffix.lower()` of the (sanitized)
filename.  MIME types and extensions are modelled as their character
lists. -/

/-- The conversion strategy `convert_attachment` selects for a file.
`unsupported` is the fall-through `return False` at converter.py:610. -/
inductive ConvPath where
  | pdfCopy
  | image
  | office
  | eml
  | msg
  | archive
  | unsupported
  deriving DecidableEq

/-- The nine office MIME types listed at converter.py:491-500 (and again at
505-515 and 877-883). -/
def officeMimes : List (List Char) :=
  ["application/msword",
   "application/vnd.openxmlformats-officedocument.wordprocessingml.document",
   "application/vnd.ms-excel",
   "application/vnd.openxmlformats-officedocument.spreadsheetml.sheet",
   "application/vnd.ms-powerpoint",
   "application/vnd.openxmlformats-officedocument.presentationml.presentation",
   "application/vnd.oasis.opendocument.text",
   "application/vnd.oasis.opendocument.spreadsheet",
   "application/vnd.oasis.opendocument.presentation"].map String.toList

/-- The office extensions listed at converter.py:501 (and 520, 883). -/
def officeExts : List (List Char) :=
  [".doc", ".docx", ".xls", ".xlsx", ".ppt", ".pptx",
   ".odt", ".ods", ".odp"].map String.toList

/-- The OOXML/OpenDocument extensions of the `application/zip` fallback at
converter.py:518. -/
def ooxmlZipExts : List (List Char) :=
  [".docx", ".xlsx", ".pptx", ".odt", ".ods", ".odp"].map String.toList

/-- The raster image MIME types accepted at converter.py:486. -/
def supportedImageMimes : List (List Char) :=
  ["image/jpeg", "image/png", "image/gif", "image/bmp",
   "image/tiff", "image/webp"].map String.toList

/-- Membership of an optional MIME type in a list (Python `mime in [...]` is
false when `mime` is `None`). -/
def mimeIn (mime : Option (List Char)) (l : List (List Char)) : Bool :=
  match mime with
  | some m => l.contains m
  | none => false

/-- Python `detected_mime.startswith('image/')` guarded by
`detected_mime` being non-`None` (converter.py:485). -/
def mimeStartsImage : Option (List Char) → Bool
  | some m => "image/".toList.isPrefixOf m
  | none => false

/-- The `is_office` determination inside the office branch
(converter.py:503-521): an office MIME whose extension is not `.msg`, or a
ZIP signature with an OOXML/OpenDocument extension, or an office
extension. -/
def isOfficeCheck (mime : Option (List Char)) (ext : List Char) : Bool :=
  if mimeIn mime officeMimes && !(ext == ".msg".toList) then true
  else if mime == some "application/zip".toList && ooxmlZipExts.contains ext then true
  else if officeExts.contains ext then true
  else false

/-- The trailing independent `if` statements of `convert_attachment`
(converter.py:530-601): EML check, then MSG check, then ZIP check, reached
whenever no earlier branch returned. -/
def tailDispatch (mime : Option (List Char)) (ext : List Char) : ConvPath :=
  if ext == ".eml".toList || mime == some "message/rfc822".toList then
    ConvPath.eml
  else if ext == ".msg".toList || mime == some "application/vnd.ms-outlook".toList then
    ConvPath.msg
  else if mime == some "application/zip".toList || ext == ".zip".toList then
    ConvPath.archive
  else ConvPath.unsupported

/-- The dispatch of `convert_attachment` (converter.py:475-610): the
`if`/`elif` chain over the detected MIME type (PDF, then supported images,
then office with its internal `is_office` refinement), falling through to the
EML/MSG/ZIP checks when a branch matched but did not return. -/
def convert_attachment_path (mime : Option (List Char)) (ext : List Char) : ConvPath :=
  if mime == some "application/pdf".toList then ConvPath.pdfCopy
  else if mimeStartsImage mime then
    if mimeIn mime supportedImageMimes then ConvPath.image
    else tailDispatch mime ext
  else if mimeIn mime officeMimes || officeExts.contains ext then
    if isOfficeCheck mime ext then ConvPath.office
    else tailDispatch mime ext
  else tailDispatch mime ext

/-- C1 counterexample: an attachment whose declared filename ends in `.docx`
but whose bytes carry a plain ZIP signature is detected as
`application/zip`, yet `convert_attachment` routes it to the external
office-conversion path (the `application/zip` + office-extension fallback at
converter.py:518), not to the archive path the claim requires. -/
theorem claim1_counterexample :
    convert_attachment_path (some "application/zip".toList) ".docx".toList
        = ConvPath.office ∧
    ConvPath.office ≠ ConvPath.archive := by decide

/-- C1 (amended): an attachment detected by signature as `application/zip`
is routed to the external office-conversion path whenever its declared
extension is one of the office extensions (`.docx` included); such a ZIP is
processed via the archive path only when its extension is not office-like,
e.g. `.zip`. -/
theorem claim1_zip_dispatch :
    (∀ ext ∈ officeExts,
      convert_attachment_path (some "application/zip".toList) ext
        = ConvPath.office) ∧
    convert_attachment_path (some "application/zip".toList) ".zip".toList
      = ConvPath.archive := by decide

/-! ZIP archive branch of `convert_attachment` (converter.py:554-601).
Extracted entries are modelled by their paths relative to the extraction
directory, as character lists with `/` separators (all entries share the
temporary-directory prefix, so sorting by the full path and by the relative
path coincide). -/

/-- Python's `≤` on strings (code-point lexicographic order), the order used
by `file_list.sort(key=lambda x: str(x))` at converter.py:576. -/
def charListLe : List Char → List Char → Bool
  | [], _ => true
  | _ :: _, [] => false
  | a :: as, b :: bs =>
    if a < b then true
    else if b < a then false
    else charListLe as bs

theorem charListLe_cons {x y : Char} {xs ys : List Char} :
    charListLe (x :: xs) (y :: ys) = true ↔
      x < y ∨ (x = y ∧ charListLe xs ys = true) := by
  by_cases h1 : x < y
  · simp [charListLe, h1]
  · by_cases h2 : y < x
    · have hne : ¬ x = y := fun h => absurd (h ▸ h2) (lt_irrefl x)
      simp [charListLe, h1, h2, hne]
    · have hxy : x = y := le_antisymm (not_lt.mp h2) (not_lt.mp h1)
      simp [charListLe, h1, h2, hxy]

theorem charListLe_total : ∀ a b : List Char,
    charListLe a b = true ∨ charListLe b a = true
  | [], _ => Or.inl rfl
  | _ :: _, [] => Or.inr rfl
  | x :: xs, y :: ys => by
    rcases lt_trichotomy x y with h | h | h
    · exact Or.inl (charListLe_cons.mpr (Or.inl h))
    · rcases charListLe_total xs ys with ih | ih
      · exact Or.inl (charListLe_cons.mpr (Or.inr ⟨h, ih⟩))
      · exact Or.inr (charListLe_cons.mpr (Or.inr ⟨h.symm, ih⟩))
    · exact Or.inr (charListLe_cons.mpr (Or.inl h))

theorem charListLe_trans : ∀ {a b c : List Char},
    charListLe a b = true → charListLe b c = true → charListLe a c = true
  | [], _, _, _, _ => rfl
  | _ :: _, [], _, h, _ => by simp [charListLe] at h
  | _ :: _, _ :: _, [], _, h => by simp [charListLe] at h
  | x :: xs, y :: ys, z :: zs, h1, h2 => by
    rcases charListLe_cons.mp h1 with hxy | ⟨rfl, hxy⟩ <;>
      rcases charListLe_cons.mp h2 with hyz | ⟨heq, hyz⟩
    · exact charListLe_cons.mpr (Or.inl (lt_trans hxy hyz))
    · exact charListLe_cons.mpr (Or.inl (heq ▸ hxy))
    · exact charListLe_cons.mpr (Or.inl hyz)
    · exact charListLe_cons.mpr (Or.inr ⟨heq, charListLe_trans hxy hyz⟩)

/-- The sort key relation of the ZIP branch, as a `Prop` for
`List.insertionSort`. -/
def zipPathLe (a b : List Char) : Prop := charListLe a b = true

instance : DecidableRel zipPathLe :=
  fun a b => inferInstanceAs (Decidable (charListLe a b = true))

instance : IsTotal (List Char) zipPathLe := ⟨charListLe_total⟩

instance : IsTrans (List Char) zipPathLe := ⟨fun _ _ _ => charListLe_trans⟩

/-- Split a path into its `/`-separated components (Python `Path.parts` for a
relative path). -/
def splitSlash : List Char → List (List Char)
  | [] => [[]]
  | c :: rest =>
    match splitSlash rest with
    | [] => [[]]
    | g :: gs => if c = '/' then [] :: g :: gs else (c :: g) :: gs

/-- Whether a component list starts with a dot (Python
`name.startswith('.')`). -/
def startsDot : List Char → Bool
  | [] => false
  | c :: _ => c == '.'

/-- The skip test of the ZIP loop (converter.py:580):
`'__MACOSX' in subfile.parts or subfile.name.startswith('.')`. -/
def zipSkip (path : List Char) : Bool :=
  (splitSlash path).contains "__MACOSX".toList ||
  startsDot (((splitSlash path).getLast?).getD [])

/-- The ZIP branch of `convert_attachment` (converter.py:554-601): sort all
extracted entries by path, skip resource-fork containers and dotfiles,
recursively convert each remaining entry (`conv` stands for the recursive
`convert_attachment` call; `none` when it returns falsy or raises), normalize
every successful result to A4, and merge the results in order; fail when no
entry converted. -/
def convertZip (conv : List Char → Option (List SrcPage))
    (entries : List (List Char)) : Option (List A4Page) :=
  let sorted := List.insertionSort zipPathLe entries
  let generated := sorted.filterMap
    (fun e => if zipSkip e then none else (conv e).map scale_to_a4)
  if generated = [] then none else some generated.flatten

/-- C6: the ZIP branch fails exactly when every non-skipped entry fails to
convert (so an archive with at least one convertible entry succeeds even if
other entries are unsupported); on success the output is the concatenation,
in path-sorted order, of the A4-normalized conversions of the non-skipped
entries (`__MACOSX` members and dotfiles are discarded); the processed order
is a sorted permutation of the extracted entries. -/
theorem claim6_zip_archive (conv : List Char → Option (List SrcPage))
    (entries : List (List Char)) :
    (convertZip conv entries =
      if ∀ e ∈ entries, zipSkip e = false → conv e = none then none
      else some ((List.insertionSort zipPathLe entries).filterMap
          (fun e => if zipSkip e then none else (conv e).map scale_to_a4)).flatten) ∧
    (List.insertionSort zipPathLe entries).Sorted zipPathLe ∧
    (List.insertionSort zipPathLe entries).Perm entries := by
  refine ⟨?_, List.sorted_insertionSort zipPathLe entries,
    List.perm_insertionSort zipPathLe entries⟩
  have hmem : ∀ e : List Char,
      e ∈ List.insertionSort zipPathLe entries ↔ e ∈ entries :=
    fun e => (List.perm_insertionSort zipPathLe entries).mem_iff
  have hiff : ((List.insertionSort zipPathLe entries).filterMap
      (fun e => if zipSkip e then none else (conv e).map scale_to_a4) = [])
      ↔ (∀ e ∈ entries, zipSkip e = false → conv e = none) := by
    rw [List.filterMap_eq_nil_iff]
    constructor
    · intro h e he hskip
      have h' := h e ((hmem e).mpr he)
      rw [if_neg (by simp [hskip])] at h'
      simpa using h'
    · intro h e he
      by_cases hs : zipSkip e
      · simp [hs]
      · have h' := h e ((hmem e).mp he) (by simpa using hs)
        simp [hs, h']
  unfold convertZip
  by_cases hc : ∀ e ∈ entries, zipSkip e = false → conv e = none
  · rw [if_pos hc]
    simp only []
    rw [if_pos (hiff.mpr hc)]
  · rw [if_neg hc]
    simp only []
    rw [if_neg (fun h => hc (hiff.mp h))]

/-! The attachment loop of `process_eml` (converter.py:800-909) and the
surrounding pipeline. -/

/-- Outcome of the `convert_attachment` call at converter.py:859 for one
attachment: success with the produced PDF's pages, a falsy return
(unsupported type, delegate failure, corrupt container, empty file), or a
raised exception (caught at converter.py:893). -/
inductive ConvResult where
  | ok (pdf : List SrcPage)
  | failed
  | raised
  deriving DecidableEq

/-- One attachment part of the message, together with the outcomes of the
effectful steps the loop performs on it.  `filename` is the declared filename
(`part.get_filename()`, `none` when absent); `sigMime` is the
signature-detected MIME type of the written bytes (`filetype.guess`, `none`
when no signature matches — the analysis-eligibility re-detection at
converter.py:870-871 uses it without any extension fallback); `writeOk` is
whether writing the bytes to the working directory succeeds
(converter.py:842-851); `extractOk` is whether `extract_pdf_data` on the
converted PDF returns data rather than `None` (converter.py:888-889);
`conv` is the outcome of `convert_attachment`. -/
structure AttachmentInput where
  filename : Option (List Char)
  sigMime : Option (List Char)
  writeOk : Bool
  extractOk : Bool
  conv : ConvResult
  deriving DecidableEq

/-- An entry of the analysis sidecar (`analysis_data['attachments']`,
converter.py:890-891), tagged with the attachment's sanitized filename; the
extracted payload (metadata, per-page text, form fields) is not consulted by
any claim and is abstracted away. -/
structure AnalysisRecord where
  filename : List Char
  deriving DecidableEq

/-- The mutable state of the attachment loop: the accumulated `pdf_parts`
(each entry already normalized to A4) and `analysis_data['attachments']`. -/
structure LoopState where
  parts : List (List A4Page)
  analysis : List AnalysisRecord
  deriving DecidableEq

/-- The analysis-eligibility test of converter.py:874-884: the original file
is a PDF by signature, or an office MIME by signature, or its (sanitized,
lower-cased) extension is an office extension. -/
def analysisEligible (mime : Option (List Char)) (ext : List Char) : Bool :=
  mime == some "application/pdf".toList || mimeIn mime officeMimes ||
    officeExts.contains ext

/-- One iteration of the attachment loop (converter.py:802-909): skip when
the declared filename is absent or empty (`if not filename: continue`);
sanitize the filename; write the bytes to the working directory (on failure
log and continue); call `convert_attachment`; on success append an analysis
record when the original attachment is PDF/office-eligible and
`extract_pdf_data` succeeds, then append the A4-normalized conversion result
to the parts; on a falsy return or an exception, skip the attachment. -/
def processAttachment (st : LoopState) (a : AttachmentInput) : LoopState :=
  match a.filename with
  | none => st
  | some rawName =>
    if rawName = [] then st
    else
      if a.writeOk then
        match a.conv with
        | ConvResult.ok pdf =>
          let name := sanitize_filename rawName
          let ext := (pathSuffix name).map Char.toLower
          let withAnalysis :=
            if analysisEligible a.sigMime ext && a.extractOk then
              LoopState.mk st.parts (st.analysis ++ [AnalysisRecord.mk name])
            else st
          LoopState.mk (withAnalysis.parts ++ [scale_to_a4 pdf])
            withAnalysis.analysis
        | ConvResult.failed => st
        | ConvResult.raised => st
      else st

/-- The attachment loop (converter.py:801-909), started on the state that
holds the rendered body as part 0.  (In the source the body part is
A4-normalized only after the loop, at converter.py:913-915; the resulting
state is the same, so the model starts from the normalized body.) -/
def attachmentLoop (bodyA4 : List A4Page) (atts : List AttachmentInput) :
    LoopState :=
  atts.foldl processAttachment (LoopState.mk [bodyA4] [])

/-- The failures of `process_eml` that reach its caller: a body-render
failure (`convert_html_to_pdf` at converter.py:797 is not wrapped in any
`try`). -/
inductive PipelineError where
  | bodyRenderFailed
  deriving DecidableEq

/-- The outputs of one `process_eml` run: the paginated merged document and
the analysis-sidecar entries. -/
structure RunResult where
  doc : List A4Page
  analysis : List AnalysisRecord
  deriving DecidableEq

/-- `process_eml` (converter.py:612-982) for one message: render the body
(modelled by the `Except` input — an exception there aborts the whole
message), run the attachment loop, merge the body and attachment parts in
order, and stamp page numbers.  Writing the XML sidecar is modelled by
returning the analysis entries. -/
def process_eml (bodyRender : Except PipelineError (List SrcPage))
    (atts : List AttachmentInput) : Except PipelineError RunResult :=
  match bodyRender with
  | Except.error e => Except.error e
  | Except.ok bodyPdf =>
    let st := attachmentLoop (scale_to_a4 bodyPdf) atts
    Except.ok (RunResult.mk (add_page_numbers (assemble st.parts)) st.analysis)

/-- Spec-side description (section 4.3/4.9 of the spec): the A4-normalized
parts contributed by exactly the successfully converted attachments, in
encounter order. -/
def successfulParts (atts : List AttachmentInput) : List (List A4Page) :=
  atts.filterMap fun a =>
    match a.filename, a.conv with
    | some rawName, ConvResult.ok pdf =>
      if rawName ≠ [] ∧ a.writeOk = true then some (scale_to_a4 pdf) else none
    | _, _ => none

/-- Spec-side description (section 4.8 of the spec, as amended): the sidecar
entries, one per attachment with a usable filename whose conversion
succeeded, whose signature-or-extension classification is PDF-or-office, and
whose extraction succeeded. -/
def analysisRecords (atts : List AttachmentInput) : List AnalysisRecord :=
  atts.filterMap fun a =>
    match a.filename, a.conv with
    | some rawName, ConvResult.ok _ =>
      if rawName ≠ [] ∧ a.writeOk = true ∧ a.extractOk = true ∧
          analysisEligible a.sigMime
            ((pathSuffix (sanitize_filename rawName)).map Char.toLower) = true
      then some (AnalysisRecord.mk (sanitize_filename rawName)) else none
    | _, _ => none

theorem attachmentLoop_foldl_eq (atts : List AttachmentInput) :
    ∀ st : LoopState, atts.foldl processAttachment st =
      LoopState.mk (st.parts ++ successfulParts atts)
        (st.analysis ++ analysisRecords atts) := by
  induction atts with
  | nil => intro st; simp [successfulParts, analysisRecords]
  | cons a rest ih =>
    intro st
    rw [List.foldl_cons, ih]
    rcases a with ⟨fn, mime, w, ex, conv⟩
    cases fn with
    | none =>
      simp [processAttachment, successfulParts, analysisRecords,
        List.filterMap_cons]
    | some raw =>
      cases conv with
      | failed =>
        simp [processAttachment, successfulParts, analysisRecords,
          List.filterMap_cons]
      | raised =>
        simp [processAttachment, successfulParts, analysisRecords,
          List.filterMap_cons]
      | ok pdf =>
        by_cases hraw : raw = []
        · simp [processAttachment, successfulParts, analysisRecords,
            List.filterMap_cons, hraw]
        · cases w with
          | false =>
            simp [processAttachment, successfulParts, analysisRecords,
              List.filterMap_cons, hraw]
          | true =>
            cases ex with
            | false =>
              simp [processAttachment, successfulParts, analysisRecords,
                List.filterMap_cons, hraw]
            | true =>
              by_cases helig : analysisEligible mime
                  ((pathSuffix (sanitize_filename raw)).map Char.toLower) = true
              · simp [processAttachment, successfulParts, analysisRecords,
                  List.filterMap_cons, hraw, helig]
              · simp [processAttachment, successfulParts, analysisRecords,
                  List.filterMap_cons, hraw, helig]

/-- C5: per-attachment failures are absorbed at the attachment-loop boundary.
For every rendered body and every sequence of attachment outcomes — including
falsy returns and raised exceptions — `process_eml` succeeds, its document
consists of the body part followed by the A4-normalized parts of exactly the
successfully converted attachments in encounter order (failed attachments are
omitted, later attachments are still processed), and its sidecar holds the
records of exactly the successful document-like attachments; a body-render
failure, by contrast, propagates to the caller unchanged. -/
theorem claim5_failure_containment (bodyPdf : List SrcPage)
    (atts : List AttachmentInput) (e : PipelineError) :
    process_eml (Except.ok bodyPdf) atts =
      Except.ok (RunResult.mk
        (add_page_numbers
          (assemble (scale_to_a4 bodyPdf :: successfulParts atts)))
        (analysisRecords atts)) ∧
    process_eml (Except.error e) atts = Except.error e := by
  constructor
  · simp only [process_eml, attachmentLoop]
    rw [attachmentLoop_foldl_eq]
    simp
  · rfl

/-- The C8 counterexample attachment: a PNG image (signature-classified as
`image/png`) declared under the filename `photo.docx`, written successfully
and converted successfully (via the image path), with successful
extraction. -/
def pngDocxAttachment : AttachmentInput :=
  AttachmentInput.mk (some "photo.docx".toList) (some "image/png".toList)
    true true (ConvResult.ok [SrcPage.mk 10 10])

/-- C8 counterexample: an attachment whose bytes are a PNG image — so its
pre-conversion classified type is a raster image, not PDF and not an office
format (its signature MIME `image/png` is not `application/pdf` and not an
office MIME; signature detection takes priority over the extension) — still
contributes an analysis record, because the eligibility test at
converter.py:874-884 also accepts a bare office extension such as the
declared `.docx`.  This refutes the only-if direction of the claim. -/
theorem claim8_counterexample :
    (attachmentLoop [] [pngDocxAttachment]).analysis
        = [AnalysisRecord.mk "photo.docx".toList] ∧
    pngDocxAttachment.sigMime = some "image/png".toList ∧
    mimeStartsImage pngDocxAttachment.sigMime = true ∧
    mimeIn pngDocxAttachment.sigMime officeMimes = false ∧
    pngDocxAttachment.sigMime ≠ some "application/pdf".toList := by decide

/-- C8 (amended): an analysis record is produced for an attachment iff its
declared filename is present and nonempty, its bytes were written, its
conversion succeeded, data extraction from the converted PDF succeeded, and
the original file is a PDF by signature, an office MIME by signature, or
carries an office filename extension — the extension disjunct applies
regardless of the signature classification, so e.g. an image with a `.docx`
name also yields a record. -/
theorem claim8_analysis_trigger (b : List A4Page)
    (atts : List AttachmentInput) :
    (attachmentLoop b atts).analysis = analysisRecords atts := by
  simp only [attachmentLoop]
  rw [attachmentLoop_foldl_eq]
  simp

/-- C10: an attachment part with no declared filename is skipped entirely:
removing it from the attachment sequence does not change the result of
`process_eml` in any way — it contributes no part, no page and no analysis
record, and the remaining attachments are processed exactly as without
it. -/
theorem claim10_missing_filename_skipped
    (bodyRender : Except PipelineError (List SrcPage))
    (pre post : List AttachmentInput) (a : AttachmentInput)
    (h : a.filename = none) :
    process_eml bodyRender (pre ++ a :: post)
      = process_eml bodyRender (pre ++ post) := by
  have hskip : ∀ st : LoopState, processAttachment st a = st := by
    intro st
    unfold processAttachment
    rw [h]
  cases bodyRender with
  | error e => rfl
  | ok bodyPdf =>
    have hloop : ∀ init : LoopState,
        (pre ++ a :: post).foldl processAttachment init
          = (pre ++ post).foldl processAttachment init := by
      intro init
      rw [List.foldl_append, List.foldl_cons, hskip, ← List.foldl_append]
    simp only [process_eml, attachmentLoop]
    rw [hloop]

/-- Witness for C10: dropping a filename-less attachment from a concrete
one-attachment message leaves the pipeline output unchanged. -/
theorem claim10_witness :
    process_eml (Except.ok [])
        [AttachmentInput.mk none none true true ConvResult.failed]
      = process_eml (Except.ok []) [] :=
  claim10_missing_filename_skipped (Except.ok []) [] []
    (AttachmentInput.mk none none true true ConvResult.failed) rfl

end Hermes
